import Mathlib

/-!
Verification of the DataImporter batch scripts.

This file gives a shallow embedding, in Lean, of the batching, retry,
pagination, ID-remapping, concurrency-pool and exit-code logic of the
repository's TypeScript scripts, and proves (or refutes) the specified
properties about them.  Each definition is translated from a concrete
source location, cited in its doc comment.
-/

/-! ## Chunking (delete-catalog.ts lines 62-68, order-data-generator.ts
    lines 390-395 and 485-498): `for (let i = 0; i < L.length; i += N)
    { batch = L.slice(i, i + N); submit(batch) }`.

    `chunksGo` carries an explicit fuel argument so that the function is
    structurally recursive and computes by evaluation; `chunks` supplies
    `l.length` as fuel, which is enough whenever the chunk size is
    positive (it always is in the scripts: 10, 500, 1000 or 2000). -/

def chunksGo (n : Nat) : Nat → List α → List (List α)
  | 0, _ => []
  | _, [] => []
  | fuel + 1, x :: xs => ((x :: xs).take n) :: chunksGo n fuel ((x :: xs).drop n)

/-- The chunking performed before batch submission: slice the input list
into contiguous sub-lists of at most `n` items, in index order. -/
def chunks (n : Nat) (l : List α) : List (List α) :=
  chunksGo n l.length l

theorem chunksGo_flatten {α : Type} (n : Nat) (hn : 0 < n) :
    ∀ (fuel : Nat) (l : List α), l.length ≤ fuel → (chunksGo n fuel l).flatten = l := by
  intro fuel
  induction fuel with
  | zero =>
    intro l hl
    have : l = [] := List.eq_nil_of_length_eq_zero (Nat.le_zero.mp hl)
    subst this
    rfl
  | succ f ih =>
    intro l hl
    cases l with
    | nil => rfl
    | cons x xs =>
      have hdrop : ((x :: xs).drop n).length ≤ f := by
        simp only [List.length_drop, List.length_cons]
        simp only [List.length_cons] at hl
        omega
      simp only [chunksGo, List.flatten_cons, ih _ hdrop, List.take_append_drop]

theorem chunksGo_fuel {α : Type} (n : Nat) (hn : 0 < n) :
    ∀ (f1 f2 : Nat) (l : List α), l.length ≤ f1 → l.length ≤ f2 →
      chunksGo n f1 l = chunksGo n f2 l := by
  intro f1
  induction f1 with
  | zero =>
    intro f2 l h1 h2
    have : l = [] := List.eq_nil_of_length_eq_zero (Nat.le_zero.mp h1)
    subst this
    cases f2 <;> rfl
  | succ f ih =>
    intro f2 l h1 h2
    cases l with
    | nil => cases f2 <;> rfl
    | cons x xs =>
      cases f2 with
      | zero => simp at h2
      | succ g =>
        simp only [chunksGo]
        congr 1
        have hd : ((x :: xs).drop n).length = xs.length + 1 - n := by
          simp [List.length_drop]
        have hx1 : xs.length + 1 ≤ f + 1 := h1
        have hx2 : xs.length + 1 ≤ g + 1 := h2
        apply ih
        · rw [hd]; omega
        · rw [hd]; omega

theorem chunks_cons_eq {α : Type} (n : Nat) (hn : 0 < n) (l : List α) (hl : l ≠ []) :
    chunks n l = l.take n :: chunks n (l.drop n) := by
  cases l with
  | nil => exact absurd rfl hl
  | cons x xs =>
    show chunksGo n (x :: xs).length (x :: xs) = _
    simp only [List.length_cons, chunksGo]
    congr 1
    apply chunksGo_fuel n hn
    · have hd : ((x :: xs).drop n).length = xs.length + 1 - n := by
        simp [List.length_drop]
      rw [hd]
      omega
    · exact le_rfl

theorem chunks_map_length_step {α : Type} (n : Nat) (hn : 0 < n) (l : List α)
    (hl : l ≠ []) :
    (chunks n l).map List.length =
      min n l.length :: (chunks n (l.drop n)).map List.length := by
  rw [chunks_cons_eq n hn l hl]
  simp [List.length_take]

/-- Claim C1: for every input list `L` and chunk size `N > 0`, the chunks
are contiguous sub-lists of at most `N` items whose in-order concatenation
reproduces `L` exactly (no item duplicated or dropped); in particular a
list of 2500 IDs with chunk size 1000 yields chunks of sizes
[1000, 1000, 500] in that order. -/
theorem chunks_concat_eq {α : Type} (n : Nat) (hn : 0 < n) (l : List α) :
    (chunks n l).flatten = l ∧
      (chunks 1000 (List.range 2500)).map List.length = [1000, 1000, 500] := by
  constructor
  · exact chunksGo_flatten n hn l.length l le_rfl
  · have h0 : (List.range 2500).length = 2500 := List.length_range 2500
    have hne0 : List.range 2500 ≠ [] := by
      intro h
      rw [h] at h0
      simp at h0
    rw [chunks_map_length_step 1000 (by decide) _ hne0]
    set l1 := (List.range 2500).drop 1000 with hl1
    have h1 : l1.length = 1500 := by rw [hl1, List.length_drop, h0]
    have hne1 : l1 ≠ [] := by
      intro h
      rw [h] at h1
      simp at h1
    rw [chunks_map_length_step 1000 (by decide) _ hne1]
    set l2 := l1.drop 1000 with hl2
    have h2 : l2.length = 500 := by rw [hl2, List.length_drop, h1]
    have hne2 : l2 ≠ [] := by
      intro h
      rw [h] at h2
      simp at h2
    rw [chunks_map_length_step 1000 (by decide) _ hne2]
    have h3 : l2.drop 1000 = [] := by
      apply List.eq_nil_of_length_eq_zero
      rw [List.length_drop, h2]
    rw [h3, h0, h1, h2]
    rfl

/-- Witness for `chunks_concat_eq` at a concrete input. -/
theorem chunks_concat_eq_witness :
    0 < 2 ∧ ((chunks 2 [10, 20, 30]).flatten = [10, 20, 30] ∧
      (chunks 1000 (List.range 2500)).map List.length = [1000, 1000, 500]) :=
  ⟨by decide, chunks_concat_eq 2 (by decide) [10, 20, 30]⟩

/-! ## safeBatchDelete (delete-catalog.ts lines 16-35)

    ```
    async function safeBatchDelete(catalogClient, ids, maxRetries = 5) {
        let attempt = 0;
        let delay = 10000; // 10 seconds
        while (attempt <= maxRetries) {
            try { await catalogClient.batchDeleteCatalogObjects(ids); return; }
            catch (error) {
                if (error.statusCode === 429 && attempt < maxRetries) {
                    await new Promise(res => setTimeout(res, delay));
                    attempt++; delay *= 2;
                } else { throw error; }
            }
        }
        throw new Error('Max retries reached for batchDeleteCatalogObjects');
    }
    ```

    The environment is modelled as a function from the attempt index to
    the outcome of that `batchDeleteCatalogObjects` call.  Delays are in
    milliseconds, as in the source (10000 ms = 10 s). -/

/-- Outcome of one remote call: success, or an exception carrying the
HTTP status code observed by the catch block. -/
inductive Response where
  | success : Response
  | failure (statusCode : Nat) : Response
deriving DecidableEq

/-- Result of the `safeBatchDelete` control flow.  `submissions` counts
calls to `batchDeleteCatalogObjects`; `waits` is the list of delays
slept before each retry, in order.  `maxRetriesReached` is the final
`throw new Error('Max retries reached ...')` after the while loop;
`outOfFuel` is an artifact of the fuel-based embedding and is proved
unreachable from the entry point. -/
inductive DeleteResult where
  | ok (submissions : Nat) (waits : List Nat) : DeleteResult
  | thrown (statusCode : Nat) (submissions : Nat) (waits : List Nat) : DeleteResult
  | maxRetriesReached : DeleteResult
  | outOfFuel : DeleteResult
deriving DecidableEq

/-- The while loop of `safeBatchDelete`.  The loop state is
`(attempt, delay, waits)`; `fuel` bounds the number of retries and is
instantiated with `maxRetries + 1`, which the theorems show is enough. -/
def safeBatchDeleteGo (responses : Nat → Response) (maxRetries : Nat) :
    Nat → Nat → Nat → List Nat → DeleteResult
  | 0, attempt, _, waits =>
    if attempt ≤ maxRetries then
      match responses attempt with
      | Response.success => DeleteResult.ok (attempt + 1) waits
      | Response.failure code =>
        if code = 429 ∧ attempt < maxRetries then DeleteResult.outOfFuel
        else DeleteResult.thrown code (attempt + 1) waits
    else DeleteResult.maxRetriesReached
  | fuel + 1, attempt, delay, waits =>
    if attempt ≤ maxRetries then
      match responses attempt with
      | Response.success => DeleteResult.ok (attempt + 1) waits
      | Response.failure code =>
        if code = 429 ∧ attempt < maxRetries then
          safeBatchDeleteGo responses maxRetries fuel (attempt + 1) (delay * 2)
            (waits ++ [delay])
        else DeleteResult.thrown code (attempt + 1) waits
    else DeleteResult.maxRetriesReached

/-- `safeBatchDelete`: attempt 0, delay 10000 ms, no waits yet. -/
def safeBatchDelete (responses : Nat → Response) (maxRetries : Nat) : DeleteResult :=
  safeBatchDeleteGo responses maxRetries (maxRetries + 1) 0 10000 []

/-- The expected backoff wait list: retry `i+1` is preceded by a wait of
`d * 2 ^ i` milliseconds. -/
def backoffWaits (d : Nat) (k : Nat) : List Nat :=
  (List.range k).map (fun i => d * 2 ^ i)

theorem backoffWaits_step (d : Nat) (ws : List Nat) (j : Nat) :
    (ws ++ [d]) ++ backoffWaits (d * 2) j = ws ++ backoffWaits d (j + 1) := by
  rw [List.append_assoc]
  congr 1
  unfold backoffWaits
  rw [List.range_succ_eq_map, List.map_cons, List.map_map]
  simp only [pow_zero, Nat.mul_one, List.singleton_append, List.cons.injEq, true_and]
  apply List.map_congr_left
  intro i hi
  simp only [Function.comp_apply, pow_succ]
  ring

theorem backoffWaits_sum (d : Nat) (k : Nat) :
    (backoffWaits d k).sum = d * (2 ^ k - 1) := by
  induction k with
  | zero => simp [backoffWaits]
  | succ j ih =>
    unfold backoffWaits at ih ⊢
    rw [List.range_succ, List.map_append, List.sum_append, ih]
    have hpos : 0 < 2 ^ j := pow_pos (by decide) j
    have hsum : 2 ^ j - 1 + 2 ^ j = 2 ^ (j + 1) - 1 := by
      rw [pow_succ]
      omega
    simp only [List.map_cons, List.map_nil, List.sum_cons, List.sum_nil, Nat.add_zero]
    rw [← Nat.mul_add, hsum]

theorem safeBatchDeleteGo_success (responses : Nat → Response) (maxRetries k : Nat)
    (hk : k ≤ maxRetries)
    (hfail : ∀ i, i < k → responses i = Response.failure 429)
    (hsucc : responses k = Response.success) :
    ∀ (j a d : Nat) (ws : List Nat) (fuel : Nat), a + j = k → j ≤ fuel →
      safeBatchDeleteGo responses maxRetries fuel a d ws =
        DeleteResult.ok (k + 1) (ws ++ backoffWaits d j) := by
  intro j
  induction j with
  | zero =>
    intro a d ws fuel ha hfuel
    have hak : a = k := by omega
    subst hak
    cases fuel <;>
      (simp only [safeBatchDeleteGo]; rw [if_pos hk]; simp [hsucc, backoffWaits])
  | succ j ih =>
    intro a d ws fuel ha hfuel
    have hak : a < k := by omega
    have h429 : responses a = Response.failure 429 := hfail a hak
    have haM : a ≤ maxRetries := by omega
    obtain ⟨f, rfl⟩ : ∃ f, fuel = f + 1 := ⟨fuel - 1, by omega⟩
    simp only [safeBatchDeleteGo]
    rw [if_pos haM]
    simp only [h429]
    rw [if_pos (show True ∧ a < maxRetries from ⟨trivial, by omega⟩)]
    rw [ih (a + 1) (d * 2) (ws ++ [d]) f (by omega) (by omega), backoffWaits_step]

theorem safeBatchDeleteGo_allFail (responses : Nat → Response) (maxRetries : Nat)
    (hall : ∀ i, i ≤ maxRetries → responses i = Response.failure 429) :
    ∀ (j a d : Nat) (ws : List Nat) (fuel : Nat), a + j = maxRetries → j ≤ fuel →
      safeBatchDeleteGo responses maxRetries fuel a d ws =
        DeleteResult.thrown 429 (maxRetries + 1) (ws ++ backoffWaits d j) := by
  intro j
  induction j with
  | zero =>
    intro a d ws fuel ha hfuel
    have hak : a = maxRetries := by omega
    subst hak
    cases fuel <;>
      (simp only [safeBatchDeleteGo]
       rw [if_pos le_rfl]
       rw [hall a le_rfl]
       simp [backoffWaits])
  | succ j ih =>
    intro a d ws fuel ha hfuel
    have haM : a ≤ maxRetries := by omega
    have h429 : responses a = Response.failure 429 := hall a haM
    obtain ⟨f, rfl⟩ : ∃ f, fuel = f + 1 := ⟨fuel - 1, by omega⟩
    simp only [safeBatchDeleteGo]
    rw [if_pos haM]
    simp only [h429]
    rw [if_pos (show True ∧ a < maxRetries from ⟨trivial, by omega⟩)]
    rw [ih (a + 1) (d * 2) (ws ++ [d]) f (by omega) (by omega), backoffWaits_step]

/-- Claim C2: if a chunk submission is rate-limited (429) exactly `k`
times with `k < maxRetries` and then succeeds, `safeBatchDelete` returns
success after `k + 1` submissions; the wait before retry `i` is
`10000 * 2 ^ (i - 1)` ms (10 s doubling each time), and the total delay
is `10000 * (2 ^ k - 1)` ms, the sum of the geometric series. -/
theorem safeBatchDelete_backoff_success (responses : Nat → Response)
    (maxRetries k : Nat) (hk : k < maxRetries)
    (hfail : ∀ i, i < k → responses i = Response.failure 429)
    (hsucc : responses k = Response.success) :
    safeBatchDelete responses maxRetries =
        DeleteResult.ok (k + 1) (backoffWaits 10000 k) ∧
      (backoffWaits 10000 k).sum = 10000 * (2 ^ k - 1) := by
  constructor
  · have := safeBatchDeleteGo_success responses maxRetries k (by omega) hfail hsucc
      k 0 10000 [] (maxRetries + 1) (by omega) (by omega)
    simpa [safeBatchDelete] using this
  · exact backoffWaits_sum 10000 k

/-- Witness response sequence for `safeBatchDelete_backoff_success`:
one 429, then success. -/
def respOne429 : Nat → Response :=
  fun i => if i < 1 then Response.failure 429 else Response.success

/-- Witness for `safeBatchDelete_backoff_success` at `k = 1`,
`maxRetries = 5`. -/
theorem safeBatchDelete_backoff_success_witness :
    (1 < 5 ∧ (∀ i, i < 1 → respOne429 i = Response.failure 429) ∧
        respOne429 1 = Response.success) ∧
      (safeBatchDelete respOne429 5 =
          DeleteResult.ok (1 + 1) (backoffWaits 10000 1) ∧
        (backoffWaits 10000 1).sum = 10000 * (2 ^ 1 - 1)) :=
  ⟨⟨by decide, by decide, by decide⟩,
    safeBatchDelete_backoff_success respOne429 5 1 (by decide) (by decide) (by decide)⟩

/-- Claim C3: if every attempt through `maxRetries` is rate-limited, the
submitter rethrows the 429 error (a terminal failure that propagates and
aborts the run) after exactly `maxRetries + 1` submissions — none beyond
the retry budget — rather than skipping the chunk. -/
theorem safeBatchDelete_exhausted_throws (responses : Nat → Response)
    (maxRetries : Nat)
    (hall : ∀ i, i ≤ maxRetries → responses i = Response.failure 429) :
    safeBatchDelete responses maxRetries =
      DeleteResult.thrown 429 (maxRetries + 1) (backoffWaits 10000 maxRetries) := by
  have := safeBatchDeleteGo_allFail responses maxRetries hall
    maxRetries 0 10000 [] (maxRetries + 1) (by omega) (by omega)
  simpa [safeBatchDelete] using this

/-- The everywhere-429 response sequence. -/
def respAll429 : Nat → Response :=
  fun _ => Response.failure 429

/-- Witness for `safeBatchDelete_exhausted_throws` at `maxRetries = 5`. -/
theorem safeBatchDelete_exhausted_throws_witness :
    (∀ i, i ≤ 5 → respAll429 i = Response.failure 429) ∧
      safeBatchDelete respAll429 5 =
        DeleteResult.thrown 429 (5 + 1) (backoffWaits 10000 5) :=
  ⟨by intro i _; rfl,
    safeBatchDelete_exhausted_throws respAll429 5 (by intro i _; rfl)⟩

/-- True exactly when the `safeBatchDelete` control flow ended by an
explicit `return` or by rethrowing the caught error inside the loop —
i.e. not by the final `throw new Error('Max retries reached ...')`
statement after the loop (and not by fuel exhaustion of the embedding). -/
def returnsOrThrows : DeleteResult → Bool
  | DeleteResult.ok _ _ => true
  | DeleteResult.thrown _ _ _ => true
  | DeleteResult.maxRetriesReached => false
  | DeleteResult.outOfFuel => false

theorem safeBatchDeleteGo_exits (responses : Nat → Response) (maxRetries : Nat) :
    ∀ (fuel a d : Nat) (ws : List Nat), a ≤ maxRetries → maxRetries ≤ a + fuel →
      returnsOrThrows (safeBatchDeleteGo responses maxRetries fuel a d ws) = true := by
  intro fuel
  induction fuel with
  | zero =>
    intro a d ws haM hbound
    have hak : a = maxRetries := by omega
    simp only [safeBatchDeleteGo]
    rw [if_pos haM]
    cases hr : responses a with
    | success => rfl
    | failure code =>
      have hnc : ¬(code = 429 ∧ a < maxRetries) := fun h => by omega
      simp only [if_neg hnc]
      rfl
  | succ f ih =>
    intro a d ws haM hbound
    simp only [safeBatchDeleteGo]
    rw [if_pos haM]
    cases hr : responses a with
    | success => rfl
    | failure code =>
      by_cases hc : code = 429 ∧ a < maxRetries
      · simp only [if_pos hc]
        exact ih (a + 1) (d * 2) (ws ++ [d]) (by omega) (by omega)
      · simp only [if_neg hc]
        rfl

/-- Claim C9: the final `throw new Error('Max retries reached for
batchDeleteCatalogObjects')` after the while loop of `safeBatchDelete` is
unreachable: for every response sequence and every `maxRetries`, every
iteration either returns (success) or throws (non-429, or 429 at
`attempt = maxRetries`), so the loop never exits normally. -/
theorem safeBatchDelete_final_throw_unreachable (responses : Nat → Response)
    (maxRetries : Nat) :
    returnsOrThrows (safeBatchDelete responses maxRetries) = true :=
  safeBatchDeleteGo_exits responses maxRetries (maxRetries + 1) 0 10000 []
    (Nat.zero_le maxRetries) (by omega)

/-! ## generateAndUploadImage retry (order-data-generator.ts lines
    177-184, and the same function in the image-import script lines
    197-204):

    ```
    } catch (error) {
        if (error?.response?.status === 429) {
            await delay(2000); // Wait 2s before retry
            return generateAndUploadImage(imageId, catalogClient);
        }
        throw error;
    }
    ```

    The recursion carries no attempt counter and no retry bound: a 429
    always triggers another full attempt.  The embedding runs the
    recursion for `fuel` attempts; `none` means the computation is still
    retrying after `fuel` attempts (it has not terminated). -/

/-- Outcome of one download-process-upload attempt, as seen by the catch
block of `generateAndUploadImage`. -/
inductive UploadResponse where
  | ok (imageId : String) : UploadResponse
  | rateLimited429 : UploadResponse
  | otherError (message : String) : UploadResponse
deriving DecidableEq

/-- The (unbounded) retry recursion of `generateAndUploadImage`,
truncated at `fuel` attempts.  `some (Except.ok id)` is a normal return,
`some (Except.error m)` is a rethrown non-429 error, `none` means the
function was still retrying when the `fuel` attempt budget ran out. -/
def generateAndUploadImageGo (responses : Nat → UploadResponse) :
    Nat → Nat → Option (Except String String)
  | 0, _ => none
  | fuel + 1, attempt =>
    match responses attempt with
    | UploadResponse.ok imageId => some (Except.ok imageId)
    | UploadResponse.rateLimited429 => generateAndUploadImageGo responses fuel (attempt + 1)
    | UploadResponse.otherError m => some (Except.error m)

/-- `generateAndUploadImage`, observed for `fuel` attempts. -/
def generateAndUploadImage (responses : Nat → UploadResponse) (fuel : Nat) :
    Option (Except String String) :=
  generateAndUploadImageGo responses fuel 0

/-- The upload never terminates: however many attempts are observed, the
function is still retrying. -/
def uploadNeverReturns (responses : Nat → UploadResponse) : Prop :=
  ∀ fuel : Nat, generateAndUploadImage responses fuel = none

/-- The everywhere-rate-limited upload environment. -/
def uploadAll429 : Nat → UploadResponse :=
  fun _ => UploadResponse.rateLimited429

theorem generateAndUploadImageGo_all429 :
    ∀ (fuel a : Nat), generateAndUploadImageGo uploadAll429 fuel a = none := by
  intro fuel
  induction fuel with
  | zero => intro a; rfl
  | succ f ih => intro a; simpa only [generateAndUploadImageGo] using ih (a + 1)

/-- Counterexample to claim C4: the image-upload retry loop is NOT
bounded.  Under an infinite sequence of rate-limited (HTTP 429)
responses, `generateAndUploadImage` keeps retrying: for every attempt
budget it has neither returned nor raised a fatal error, contradicting
"every retry loop ... terminates with a fatal error after finitely many
attempts rather than retrying forever". -/
theorem imageUpload_retries_unbounded : uploadNeverReturns uploadAll429 :=
  fun fuel => generateAndUploadImageGo_all429 fuel 0

/-! ## Location-update retry (delete-locations.ts lines 19-37)

    ```
    let retryCount = 0;
    const maxRetries = 3;
    while (retryCount < maxRetries) {
        try { await client.locationsApi.updateLocation(...); break; }
        catch (error) {
            if (error.statusCode === 429 && retryCount < maxRetries) {
                await new Promise(resolve => setTimeout(resolve, delay));
                retryCount++;
            } else { throw error; }
        }
    }
    ```

    On the third consecutive 429 the loop condition becomes false and the
    loop exits normally: the location is silently left un-updated and the
    script moves on — no error is raised. -/

/-- Result of the location-update retry loop.  `gaveUp` is the normal
loop exit with the update never having succeeded; `locOutOfFuel` is an
artifact of the fuel embedding, unreachable from the entry point. -/
inductive LocUpdateResult where
  | updated (attempts : Nat) : LocUpdateResult
  | locThrown (statusCode : Nat) (attempts : Nat) : LocUpdateResult
  | gaveUp (attempts : Nat) : LocUpdateResult
  | locOutOfFuel : LocUpdateResult
deriving DecidableEq

/-- The while loop of the per-location update retry. -/
def updateLocationGo (responses : Nat → Response) (maxRetries : Nat) :
    Nat → Nat → LocUpdateResult
  | 0, retryCount =>
    if retryCount < maxRetries then
      match responses retryCount with
      | Response.success => LocUpdateResult.updated (retryCount + 1)
      | Response.failure code =>
        if code = 429 ∧ retryCount < maxRetries then LocUpdateResult.locOutOfFuel
        else LocUpdateResult.locThrown code (retryCount + 1)
    else LocUpdateResult.gaveUp retryCount
  | fuel + 1, retryCount =>
    if retryCount < maxRetries then
      match responses retryCount with
      | Response.success => LocUpdateResult.updated (retryCount + 1)
      | Response.failure code =>
        if code = 429 ∧ retryCount < maxRetries then
          updateLocationGo responses maxRetries fuel (retryCount + 1)
        else LocUpdateResult.locThrown code (retryCount + 1)
    else LocUpdateResult.gaveUp retryCount

/-- The location-update retry loop, entered with `retryCount = 0`; the
source fixes `maxRetries = 3`. -/
def updateLocationRetry (responses : Nat → Response) (maxRetries : Nat) :
    LocUpdateResult :=
  updateLocationGo responses maxRetries maxRetries 0

/-- Claim C4, amended.  The batch-delete retry loop is bounded: under
all-429 responses it rethrows the error after exactly `maxRetries + 1`
submissions.  The location-update retry loop is also bounded, but under
all-429 responses it terminates by giving up silently after its 3
retries — no fatal error is raised.  The image-upload retry, by
contrast, is unbounded: under all-429 responses it never terminates. -/
theorem retryLoops_bounded_except_imageUpload (maxRetries : Nat) :
    safeBatchDelete respAll429 maxRetries =
        DeleteResult.thrown 429 (maxRetries + 1) (backoffWaits 10000 maxRetries) ∧
      updateLocationRetry respAll429 3 = LocUpdateResult.gaveUp 3 ∧
      uploadNeverReturns uploadAll429 := by
  refine ⟨?_, by decide, fun fuel => generateAndUploadImageGo_all429 fuel 0⟩
  have := safeBatchDeleteGo_allFail respAll429 maxRetries (fun i _ => rfl)
    maxRetries 0 10000 [] (maxRetries + 1) (by omega) (by omega)
  simpa [safeBatchDelete] using this

/-! ## Cursor pagination: fetchAllImages (delete-images.ts lines 16-27,
    create-catalog-with-images.ts lines 73-98)

    ```
    let images = []; let cursor = undefined;
    do {
        const response = await listCatalog(cursor, 'IMAGE');
        if (response.result.objects) images = images.concat(response.result.objects);
        cursor = response.result.cursor;
    } while (cursor);
    ```

    The server is modelled as holding `total` objects (represented by
    their indices `0, ..., total - 1`) served in pages of `pageSize`
    starting at the position encoded by the cursor; the returned cursor
    is present exactly when objects remain.  The loop result is the
    accumulated object list together with the number of page fetches
    performed. -/

/-- One page served at position `pos`: up to `pageSize` objects and an
optional continuation cursor. -/
structure PageResult where
  objects : List Nat
  cursor : Option Nat
deriving DecidableEq

/-- The paginated listing endpoint. -/
def listCatalogPage (total pageSize pos : Nat) : PageResult :=
  PageResult.mk (List.range' pos (min pageSize (total - pos)))
    (if pos + pageSize < total then some (pos + pageSize) else none)

/-- The do-while accumulation loop of `fetchAllImages`.  `fuel` bounds
the recursion depth; `total + 1` pages always suffice when the page size
is positive. -/
def fetchAllImagesGo (total pageSize : Nat) : Nat → Nat → List Nat × Nat
  | 0, _ => ([], 0)
  | fuel + 1, pos =>
    let page := listCatalogPage total pageSize pos
    match page.cursor with
    | none => (page.objects, 1)
    | some next =>
      let rest := fetchAllImagesGo total pageSize fuel next
      (page.objects ++ rest.1, rest.2 + 1)

/-- `fetchAllImages`: start with an absent cursor (position 0). -/
def fetchAllImages (total pageSize : Nat) : List Nat × Nat :=
  fetchAllImagesGo total pageSize (total + 1) 0

/-- Counterexample to claim C5 as stated: with `M = 0` objects and page
size `P = 10` the do-while loop still performs its unconditional first
fetch, so the number of page fetches is 1, not `ceil(0 / 10) = 0`. -/
theorem fetchAllImages_zero_fetches_once :
    (fetchAllImages 0 10).2 = 1 ∧ (0 + 10 - 1) / 10 = 0 := by
  constructor
  · rfl
  · rfl

theorem fetchAllImagesGo_spec (total pageSize : Nat) (hP : 0 < pageSize) :
    ∀ (fuel pos : Nat), pos < total → total - pos ≤ fuel →
      fetchAllImagesGo total pageSize fuel pos =
        (List.range' pos (total - pos), (total - pos - 1) / pageSize + 1) := by
  intro fuel
  induction fuel with
  | zero =>
    intro pos hpos hfuel
    omega
  | succ f ih =>
    intro pos hpos hfuel
    by_cases hmore : pos + pageSize < total
    · have hmin : min pageSize (total - pos) = pageSize := by omega
      have hnext : pos + pageSize < total := hmore
      have hrec := ih (pos + pageSize) hnext (by omega)
      simp only [fetchAllImagesGo, listCatalogPage, hmin, if_pos hmore, hrec]
      rw [Prod.mk.injEq]
      constructor
      · have harr : total - (pos + pageSize) = total - pos - pageSize := by omega
        rw [harr]
        have := List.range'_append_1 pos pageSize (total - pos - pageSize)
        rw [this]
        congr 1
        omega
      · have hgt : pageSize ≤ total - pos - 1 := by omega
        have hdiv : total - pos - 1 = (total - (pos + pageSize) - 1) + pageSize := by
          omega
        rw [hdiv, Nat.add_div_right _ hP]
    · have hmin : min pageSize (total - pos) = total - pos := by omega
      simp only [fetchAllImagesGo, listCatalogPage, hmin, if_neg hmore]
      rw [Prod.mk.injEq]
      constructor
      · rfl
      · have hlt : total - pos - 1 < pageSize := by omega
        rw [Nat.div_eq_of_lt hlt]

/-- Claim C5, amended.  For a total of `M ≥ 1` objects split across
pages of size `P ≥ 1`, the cursor-following loop performs exactly
`ceil(M / P) = (M + P - 1) / P` page fetches, accumulates all `M`
objects with no duplicates, and terminates when the returned cursor is
absent; for `M = 0` the do-while loop still performs one (empty) fetch. -/
theorem fetchAllImages_pagination_spec (total pageSize : Nat) (hP : 0 < pageSize)
    (hM : 0 < total) :
    fetchAllImages total pageSize =
        (List.range total, (total + pageSize - 1) / pageSize) ∧
      (fetchAllImages total pageSize).1.Nodup ∧
      fetchAllImages 0 pageSize = ([], 1) := by
  have hmain : fetchAllImages total pageSize =
      (List.range total, (total + pageSize - 1) / pageSize) := by
    have := fetchAllImagesGo_spec total pageSize hP (total + 1) 0 hM (by omega)
    rw [fetchAllImages, this]
    rw [Prod.mk.injEq]
    constructor
    · rw [Nat.sub_zero, List.range_eq_range']
    · have h1 : total + pageSize - 1 = (total - 0 - 1) + pageSize := by omega
      rw [h1, Nat.add_div_right _ hP]
  refine ⟨hmain, ?_, ?_⟩
  · rw [hmain]
    exact List.nodup_range total
  · rw [fetchAllImages]
    simp only [fetchAllImagesGo, listCatalogPage]
    have hmin : min pageSize (0 - 0) = 0 := by omega
    have hnc : ¬(0 + pageSize < 0) := by omega
    simp [hmin, hnc]

/-- Witness for `fetchAllImages_pagination_spec` at `M = 25`, `P = 10`:
three fetches accumulate the 25 objects. -/
theorem fetchAllImages_pagination_spec_witness :
    (0 < 10 ∧ 0 < 25) ∧
      (fetchAllImages 25 10 = (List.range 25, (25 + 10 - 1) / 10) ∧
        (fetchAllImages 25 10).1.Nodup ∧
        fetchAllImages 0 10 = ([], 1)) :=
  ⟨⟨by decide, by decide⟩, fetchAllImages_pagination_spec 25 10 (by decide) (by decide)⟩

/-! ## ID remapping (order-data-generator.ts lines 404-415 and 422-424)

    ```
    const categoryIdMap: Record<string, string> = {};
    if (firstBatchResponse.idMappings) {
        for (const cat of categories) {
            const mapping = firstBatchResponse.idMappings.find(m => m.clientObjectId === cat.id);
            if (mapping && mapping.objectId) {
                categoryIdMap[cat.id] = mapping.objectId;
            } else {
                categoryIdMap[cat.id] = cat.id; // fallback
            }
        }
    }
    ...
    const realCategoryId = categoryIdMap[clientCategoryId] || clientCategoryId;
    ```

    The value `realCategoryId` is placed verbatim into the submitted
    item's `itemData.categories` field (lines 463-476).  JavaScript
    truthiness is modelled: an absent or empty-string `objectId` is
    falsy. -/

/-- One entry of `firstBatchResponse.idMappings`. -/
structure IdMapping where
  clientObjectId : String
  objectId : Option String
deriving DecidableEq

/-- The `categoryIdMap` built by the loop above: one entry per category
client ID.  `idMappings = none` models an absent `idMappings` field, in
which case the map is left empty. -/
def buildCategoryIdMap (idMappings : Option (List IdMapping))
    (categoryIds : List String) : List (String × String) :=
  match idMappings with
  | none => []
  | some ms =>
    categoryIds.map (fun cid =>
      match ms.find? (fun m => m.clientObjectId = cid) with
      | some m =>
        match m.objectId with
        | some oid => if oid = "" then (cid, cid) else (cid, oid)
        | none => (cid, cid)
      | none => (cid, cid))

/-- `categoryIdMap[clientCategoryId] || clientCategoryId`: map lookup
with fallback to the client placeholder when the entry is absent or
falsy. -/
def realCategoryId (categoryIdMap : List (String × String))
    (clientCategoryId : String) : String :=
  match categoryIdMap.find? (fun p => p.1 = clientCategoryId) with
  | some p => if p.2 = "" then clientCategoryId else p.2
  | none => clientCategoryId

/-- Counterexample to claim C6: when the upsert response contains no
mapping for `"#Category1"`, the item construction resolves the category
reference to the placeholder `"#Category1"` itself — the placeholder IS
used as the real ID in the submitted chunk, and no "no ID found" error
is raised (the run continues). -/
theorem placeholder_fallback_used :
    realCategoryId (buildCategoryIdMap (some []) ["#Category1"]) "#Category1" =
        "#Category1" ∧
      realCategoryId (buildCategoryIdMap none ["#Category1"]) "#Category1" =
        "#Category1" := by
  constructor
  · rfl
  · rfl

/-- Claim C6, amended.  When the chunk upsert returns a mapping
`{clientObjectId: "#Category1", objectId: "ABC123"}`, subsequent item
construction resolves `"#Category1"` to `"ABC123"`; but when no mapping
is found, `importCatalog` in order-data-generator.ts silently falls back
to the client placeholder (`|| clientObjectId`) and submits it as the
real ID — the run does not fail with a "no ID found" error. -/
theorem id_resolution_with_fallback :
    realCategoryId
        (buildCategoryIdMap
          (some [IdMapping.mk "#Category1" (some "ABC123")]) ["#Category1"])
        "#Category1" = "ABC123" ∧
      realCategoryId (buildCategoryIdMap (some []) ["#Category1"]) "#Category1" =
        "#Category1" := by
  constructor
  · rfl
  · rfl

/-! ## Bounded concurrency pool (p-limit; configured in
    order-data-generator.ts lines 102-106 and the image-import script
    lines 122-126: `const limit = pLimit(10);`,
    `const downloadLimit = pLimit(3);`)

    Modelled from the spec: the `p-limit` implementation itself is a
    third-party dependency and is not part of this repository's sources,
    so its scheduling behaviour is modelled from spec section 4.3: a
    submitted work unit starts immediately when fewer than `K` units are
    active, and is queued otherwise; when an active unit completes, a
    queued unit (if any) is started in its place.  The cooperative
    (single-threaded, non-preemptive) event loop means these are the only
    state transitions. -/

/-- Pool state: number of started-but-not-completed work units, and
number of queued (submitted, not yet started) units. -/
structure PoolState where
  active : Nat
  queued : Nat
deriving DecidableEq

/-- One event-loop transition of a pool with concurrency limit `K`. -/
inductive PoolStep (K : Nat) : PoolState → PoolState → Prop
  | submitRun (s : PoolState) (h : s.active < K) :
      PoolStep K s (PoolState.mk (s.active + 1) s.queued)
  | submitQueue (s : PoolState) (h : ¬s.active < K) :
      PoolStep K s (PoolState.mk s.active (s.queued + 1))
  | completeStartNext (s : PoolState) (ha : 0 < s.active) (hq : 0 < s.queued) :
      PoolStep K s (PoolState.mk s.active (s.queued - 1))
  | completeIdle (s : PoolState) (ha : 0 < s.active) (hq : s.queued = 0) :
      PoolStep K s (PoolState.mk (s.active - 1) 0)

/-- States reachable from the idle pool. -/
inductive PoolReachable (K : Nat) : PoolState → Prop
  | init : PoolReachable K (PoolState.mk 0 0)
  | step {s t : PoolState} (hr : PoolReachable K s) (hs : PoolStep K s t) :
      PoolReachable K t

/-- Claim C7: for every run of the bounded concurrency pool with limit
`K` (10 for image uploads, 3 for image downloads), at no reachable state
are more than `K` work units simultaneously started-but-not-completed;
work beyond `K` sits in the queue. -/
theorem pool_active_le_limit (K : Nat) (s : PoolState) (h : PoolReachable K s) :
    s.active ≤ K := by
  induction h with
  | init => exact Nat.zero_le K
  | step hr hs ih =>
    cases hs with
    | submitRun hlt => simpa using hlt
    | submitQueue hge => simpa using ih
    | completeStartNext ha hq => simpa using ih
    | completeIdle ha hq => simp; omega

/-- Witness for `pool_active_le_limit`: the state with one active upload
reached after one submission to the `K = 10` pool. -/
theorem pool_active_le_limit_witness :
    PoolReachable 10 (PoolState.mk 1 0) ∧ (PoolState.mk 1 0).active ≤ 10 := by
  have hreach : PoolReachable 10 (PoolState.mk 1 0) :=
    PoolReachable.step PoolReachable.init
      (PoolStep.submitRun (PoolState.mk 0 0) (by decide))
  exact ⟨hreach, pool_active_le_limit 10 (PoolState.mk 1 0) hreach⟩

/-! ## Script exit codes (create-locations.ts lines 11-43,
    delete-locations.ts lines 11-43, delete-catalog.ts lines 74-83)

    `createLocations` wraps each per-location `createLocation` call in a
    `try { ... } catch (error) { console.error(...); }` and always
    continues; the function never rejects, so the process exits 0 even
    when every call failed.  `deleteLocations` wraps its whole body in a
    single catch that only logs.  `deleteCatalog`, by contrast, calls
    `process.exit(1)` in its catch.

    A script run is summarised by the number of errors logged and the
    process exit code.  The outcome of each remote call is an
    `Except String Unit`. -/

/-- Observable result of one script run. -/
structure ScriptRun where
  errorsLogged : Nat
  exitCode : Nat
deriving DecidableEq

/-- The `createLocations` loop: the per-location `try/catch` logs the error
and continues; after the loop the async function resolves and the
process exits 0. -/
def createLocationsGo : List (Except String Unit) → Nat → ScriptRun
  | [], errs => ScriptRun.mk errs 0
  | Except.ok _ :: rest, errs => createLocationsGo rest errs
  | Except.error _ :: rest, errs => createLocationsGo rest (errs + 1)

/-- `createLocations`, given the outcome of each `createLocation` call. -/
def createLocations (outcomes : List (Except String Unit)) : ScriptRun :=
  createLocationsGo outcomes 0

/-- `deleteLocations`: the whole body is wrapped in
`try { ... } catch (error) { console.error('Error deleting locations:', error); }`
— an error is logged and swallowed, and the process still exits 0. -/
def deleteLocations (body : Except String Unit) : ScriptRun :=
  match body with
  | Except.ok _ => ScriptRun.mk 0 0
  | Except.error _ => ScriptRun.mk 1 0

/-- `deleteCatalog` (delete-catalog.ts lines 74-83): the catch logs the
error and calls `process.exit(1)`. -/
def deleteCatalog (body : Except String Unit) : ScriptRun :=
  match body with
  | Except.ok _ => ScriptRun.mk 0 0
  | Except.error _ => ScriptRun.mk 1 1

/-- Counterexample to claim C8: a `createLocations` run in which the
single `createLocation` call fails logs the error but exits with code 0,
not 1 — an error path ends the process with exit code 0. -/
theorem createLocations_error_exit_zero :
    (createLocations [Except.error "HTTP 500"]).errorsLogged = 1 ∧
      (createLocations [Except.error "HTTP 500"]).exitCode = 0 := by
  constructor
  · rfl
  · rfl

theorem createLocationsGo_exit_zero :
    ∀ (outcomes : List (Except String Unit)) (errs : Nat),
      (createLocationsGo outcomes errs).exitCode = 0 := by
  intro outcomes
  induction outcomes with
  | nil => intro errs; rfl
  | cons o rest ih =>
    intro errs
    cases o with
    | ok u => exact ih errs
    | error e => exact ih (errs + 1)

/-- Claim C8, amended.  Scripts whose top-level catch calls
`process.exit(1)` (delete-catalog and the import/generation scripts)
exit 0 on success and 1 on error; but `create-locations` and
`delete-locations` catch and log their errors without setting an exit
code, so they exit 0 even when operations fail. -/
theorem script_exit_codes :
    (∀ outcomes : List (Except String Unit),
        (createLocations outcomes).exitCode = 0) ∧
      (∀ e : String, (deleteLocations (Except.error e)).exitCode = 0) ∧
      (∀ e : String, (deleteCatalog (Except.error e)).exitCode = 1) ∧
      (deleteCatalog (Except.ok ())).exitCode = 0 := by
  refine ⟨fun outcomes => createLocationsGo_exit_zero outcomes 0, fun e => rfl,
    fun e => rfl, rfl⟩

/-! ## Single-page listing and its callers
    (SquareManager.listCatalog / listCatalogIds, SquareCatalogClient
    lines 316-324: `listCatalog(undefined, types?.join())` — the cursor
    argument is always `undefined` and `result.cursor` is never read;
    `listTaxes` / `deleteTaxes`, lines 484-495, call it once;
    `deleteAllCatalogObjects`, delete-catalog.ts lines 54-72, re-lists
    in a do-while loop until the listing is empty.)

    The remote catalog is modelled as a list of object IDs; a listing
    request with an absent cursor returns the first page of at most
    `pageSize` IDs.  (The object-type filters are abstracted away: the
    model catalog holds only the objects matching the requested types.) -/

/-- The server's first page for an absent cursor: the first `pageSize`
objects, plus a continuation cursor that `listCatalog` never reads. -/
def listCatalogFirstPage (pageSize : Nat) (catalog : List String) :
    List String × Option Nat :=
  (catalog.take pageSize,
    if pageSize < catalog.length then some pageSize else none)

/-- `SquareManager.listCatalogIds`: one `listCatalog` request with
`cursor = undefined`; the returned cursor is discarded. -/
def listCatalogIds (pageSize : Nat) (catalog : List String) : List String :=
  (listCatalogFirstPage pageSize catalog).1

/-- Server-side effect of `batchDeleteCatalogObjects ids`: the listed
IDs are removed from the catalog. -/
def batchDeleteCatalogObjects (catalog : List String) (ids : List String) :
    List String :=
  catalog.filter (fun o => !(ids.contains o))

/-- `SquareManager.deleteTaxes`: list (once), and if any objects came
back, batch delete them.  Returns the resulting catalog state. -/
def deleteTaxes (pageSize : Nat) (catalog : List String) : List String :=
  let taxes := listCatalogIds pageSize catalog
  if 0 < taxes.length then batchDeleteCatalogObjects catalog taxes else catalog

/-- The do-while loop of `deleteAllCatalogObjects`: list, delete the
listed IDs, repeat while the listing was non-empty. -/
def deleteAllCatalogObjectsGo (pageSize : Nat) : Nat → List String → List String
  | 0, catalog => catalog
  | fuel + 1, catalog =>
    let listed := listCatalogIds pageSize catalog
    if 0 < listed.length then
      deleteAllCatalogObjectsGo pageSize fuel (batchDeleteCatalogObjects catalog listed)
    else catalog

/-- `deleteAllCatalogObjects`: the re-list-until-empty loop.  A fuel of
`catalog.length + 1` iterations always suffices for a positive page
size. -/
def deleteAllCatalogObjects (pageSize : Nat) (catalog : List String) : List String :=
  deleteAllCatalogObjectsGo pageSize (catalog.length + 1) catalog

theorem batchDelete_take_eq_drop (pageSize : Nat) (catalog : List String)
    (hnd : catalog.Nodup) :
    batchDeleteCatalogObjects catalog (catalog.take pageSize) =
      catalog.drop pageSize := by
  unfold batchDeleteCatalogObjects
  set t := catalog.take pageSize with ht
  set d := catalog.drop pageSize with hd
  have hsplit : t ++ d = catalog := List.take_append_drop pageSize catalog
  have hdisj : List.Disjoint t d := by
    have hn : (t ++ d).Nodup := by
      rw [hsplit]; exact hnd
    exact (List.nodup_append.mp hn).2.2
  have h1 : t.filter (fun o => !(t.contains o)) = [] := by
    rw [List.filter_eq_nil_iff]
    intro a ha
    simp only [Bool.not_eq_true', Bool.not_eq_false]
    exact (List.elem_iff).mpr ha
  have h2 : d.filter (fun o => !(t.contains o)) = d := by
    rw [List.filter_eq_self]
    intro a ha
    simp only [Bool.not_eq_true']
    rw [← Bool.not_eq_true]
    intro hc
    exact hdisj (List.elem_iff.mp hc) ha
  rw [← hsplit, List.filter_append, h1, h2, List.nil_append]

theorem deleteAllCatalogObjectsGo_empties (pageSize : Nat) (hP : 0 < pageSize) :
    ∀ (fuel : Nat) (catalog : List String), catalog.Nodup →
      catalog.length ≤ fuel →
      deleteAllCatalogObjectsGo pageSize fuel catalog = [] := by
  intro fuel
  induction fuel with
  | zero =>
    intro catalog hnd hlen
    have : catalog = [] := List.eq_nil_of_length_eq_zero (Nat.le_zero.mp hlen)
    rw [this]
    rfl
  | succ f ih =>
    intro catalog hnd hlen
    simp only [deleteAllCatalogObjectsGo, listCatalogIds, listCatalogFirstPage]
    by_cases hc : catalog = []
    · rw [hc]
      simp
    · have hpos : 0 < (catalog.take pageSize).length := by
        rw [List.length_take]
        have : 0 < catalog.length := List.length_pos.mpr hc
        omega
      rw [if_pos hpos, batchDelete_take_eq_drop pageSize catalog hnd]
      apply ih
      · exact hnd.sublist (List.drop_sublist pageSize catalog)
      · rw [List.length_drop]
        have : 0 < catalog.length := List.length_pos.mpr hc
        omega

/-- Claim C10: `listCatalogIds` issues exactly one page request with an
absent cursor and never follows the returned cursor, so it returns only
the first page (at most `pageSize` objects); consequently `deleteTaxes`,
which calls it once, deletes only the first page of taxes (the rest of
the catalog survives), while `deleteAllCatalogObjects`, which re-lists
in a loop until the listing is empty, empties the full catalog. -/
theorem single_page_listing_and_full_deletion (pageSize : Nat)
    (catalog : List String) (hP : 0 < pageSize) (hnd : catalog.Nodup) :
    listCatalogIds pageSize catalog = catalog.take pageSize ∧
      (listCatalogIds pageSize catalog).length ≤ pageSize ∧
      deleteTaxes pageSize catalog = catalog.drop pageSize ∧
      deleteAllCatalogObjects pageSize catalog = [] := by
  have hlist : listCatalogIds pageSize catalog = catalog.take pageSize := rfl
  refine ⟨hlist, ?_, ?_, ?_⟩
  · rw [hlist, List.length_take]
    omega
  · unfold deleteTaxes
    rw [hlist]
    by_cases hc : 0 < (catalog.take pageSize).length
    · rw [if_pos hc, batchDelete_take_eq_drop pageSize catalog hnd]
    · rw [if_neg hc]
      have h0 : (catalog.take pageSize).length = 0 := by omega
      rw [List.length_take] at h0
      have : catalog.length = 0 := by omega
      have hnil : catalog = [] := List.eq_nil_of_length_eq_zero this
      rw [hnil]
      simp
  · exact deleteAllCatalogObjectsGo_empties pageSize hP (catalog.length + 1)
      catalog hnd (by omega)

/-- Witness for `single_page_listing_and_full_deletion` with a
three-object catalog and page size 2: one listing returns two IDs,
`deleteTaxes` leaves `["c"]`, the loop deletes everything. -/
theorem single_page_listing_and_full_deletion_witness :
    (0 < 2 ∧ (["a", "b", "c"] : List String).Nodup) ∧
      (listCatalogIds 2 ["a", "b", "c"] = (["a", "b", "c"] : List String).take 2 ∧
        (listCatalogIds 2 ["a", "b", "c"]).length ≤ 2 ∧
        deleteTaxes 2 ["a", "b", "c"] = (["a", "b", "c"] : List String).drop 2 ∧
        deleteAllCatalogObjects 2 ["a", "b", "c"] = []) :=
  ⟨⟨by decide, by decide⟩,
    single_page_listing_and_full_deletion 2 ["a", "b", "c"] (by decide) (by decide)⟩
